import Mathlib

/-!
Verification of the SentimentEdge dashboard client (frontend service).

The development shallowly embeds the client-side synchronization and
derivation layer of the repository:

* the cumulative P&L derivation of components/PnLChart.tsx,
* the active-ticker derivation (uniqueTickers) of App.tsx,
* the push-envelope handler (handleWebSocketMessage) of App.tsx together
  with the displayed-performance selection (displayPerformance),
* the message/reconnect behaviour of hooks/useWebSocket.ts as an explicit
  event-step machine.

JS numbers are modelled as exact integers (the modelled code only adds
and compares them), JS timestamps as epoch-millisecond integers (the
source compares new Date(x).getTime() values), and push payloads as an
opaque type V (the source casts message.data without any runtime
validation, so payloads flow through untyped).
-/

/-- A JS value read from a Trade field that is declared optional
(realized_pnl?: number).  At runtime the field can be a number, the JSON
value null (what a SQL NULL serializes to), or absent (undefined);
the chart code distinguishes undefined from null. -/
inductive PnlField where
  | undef : PnlField
  | pnull : PnlField
  | num : Int → PnlField
deriving DecidableEq

/-- Trade record of types.ts restricted to the fields the modelled
derivations read: ticker (uniqueTickers), timestamp and realized_pnl
(PnLChart).  The remaining fields (id, signal_type, quantity, price,
position_id) are never read by the modelled code and are omitted.
timestamp is the epoch-millisecond value of the ISO string. -/
structure Trade where
  ticker : String
  timestamp : Int
  realized_pnl : PnlField
deriving DecidableEq

/-- Point of the cumulative P&L series (ChartDataPoint of PnLChart.tsx).
The displayTime field is pure formatting of timestamp and is omitted. -/
structure ChartDataPoint where
  timestamp : Int
  cumulative_pnl : Int
deriving DecidableEq

/-- trade.realized_pnl || 0 : the fold of PnLChart.tsx coalesces a
nullish (or zero) realized_pnl to 0 before adding it. -/
def pnlOrZero : PnlField → Int
  | PnlField.undef => 0
  | PnlField.pnull => 0
  | PnlField.num v => v

/-- One step of the stable ascending-by-timestamp sort used by
PnLChart.tsx (Array.prototype.sort with comparator
new Date(a.timestamp).getTime() - new Date(b.timestamp).getTime()). -/
def insertByTs (a : Trade) : List Trade → List Trade
  | [] => [a]
  | b :: l => if a.timestamp ≤ b.timestamp then a :: b :: l else b :: insertByTs a l

/-- Stable sort ascending by timestamp (Array.prototype.sort is stable;
insertion with ≤ preserves the input order of equal timestamps). -/
def sortByTs : List Trade → List Trade
  | [] => []
  | t :: ts => insertByTs t (sortByTs ts)

/-- The filter of PnLChart.tsx: t.realized_pnl !== undefined.  Note this
keeps a trade whose realized_pnl is the JSON value null. -/
def hasDefinedPnl (t : Trade) : Bool :=
  t.realized_pnl ≠ PnlField.undef

/-- The running total read off an accumulated series: the
cumulative_pnl of the last point, 0 for the empty series (the reduce's
prevPnL expression acc.length > 0 ? acc[acc.length - 1].cumulative_pnl : 0,
also the final value of the whole series). -/
def finalTotal (pts : List ChartDataPoint) : Int :=
  match pts.getLast? with
  | some p => p.cumulative_pnl
  | none => 0

/-- The accumulating step of the reduce in PnLChart.tsx: read the last
accumulated cumulative_pnl (0 when the accumulator is empty), add the
trade's (realized_pnl || 0), and push a new point. -/
def chartStep (acc : List ChartDataPoint) (t : Trade) : List ChartDataPoint :=
  acc ++ [{ timestamp := t.timestamp,
            cumulative_pnl := finalTotal acc + pnlOrZero t.realized_pnl }]

/-- chartData of PnLChart.tsx: filter to trades whose realized_pnl is
not undefined, sort ascending by timestamp, fold left accumulating the
running total. -/
def chartData (trades : List Trade) : List ChartDataPoint :=
  (sortByTs (trades.filter hasDefinedPnl)).foldl chartStep []

/-- Whether a trade carries an actual numeric realized P&L. -/
def isNumPnl (t : Trade) : Bool :=
  match t.realized_pnl with
  | PnlField.num _ => true
  | _ => false

/-- Number of input trades whose realized_pnl is an actual number. -/
def countNumericPnl (trades : List Trade) : Nat :=
  (trades.filter isNumPnl).length

/-- Sum of all realized P&L values present in the input (trades whose
realized_pnl is undefined or null contribute nothing). -/
def sumRealized (trades : List Trade) : Int :=
  (trades.filterMap fun t =>
    match t.realized_pnl with
    | PnlField.num v => some v
    | _ => none).sum

example :
    chartData [⟨"A", 1, PnlField.pnull⟩, ⟨"A", 2, PnlField.num 10⟩,
               ⟨"A", 3, PnlField.num (-4)⟩] =
      [⟨1, 0⟩, ⟨2, 10⟩, ⟨3, 6⟩] := by decide

example :
    chartData [⟨"A", 1, PnlField.undef⟩, ⟨"A", 2, PnlField.num 10⟩,
               ⟨"A", 3, PnlField.num (-4)⟩] =
      [⟨2, 10⟩, ⟨3, 6⟩] := by decide

/-!
## App state and the push-envelope handler (App.tsx)

Push payloads are modelled by an opaque type V: the source casts
message.data (as Signal, as Performance) without any runtime check, so
at runtime any JS value flows through unchanged.  AppState collects the
two useState cells of App plus the query-layer snapshots that the
claims talk about.
-/

/-- A decoded push envelope (WebSocketMessage of types.ts): a type tag
string and an unvalidated payload. -/
structure WsMessage (V : Type) where
  mtype : String
  data : V
deriving DecidableEq

/-- Client state visible to App: the two useState cells liveSignals and
livePerformance, plus the cached query snapshots for positions, trades
and performance (undefined before the first successful fetch; the App
destructures positions and trades with default []). -/
structure AppState (V : Type) where
  liveSignals : List V
  livePerformance : Option V
  positionsSnap : List V
  tradesSnap : List V
  performanceSnap : Option V
deriving DecidableEq

/-- Refetch calls issued synchronously by one handler invocation. -/
structure RefetchCalls where
  positionsCalls : Nat
  tradesCalls : Nat
deriving DecidableEq

/-- The signal-buffer capacity literal of App.tsx
(setLiveSignals(prev => [signal, ...prev].slice(0, 50))). -/
def bufferCap : Nat := 50

/-- handleWebSocketMessage of App.tsx.  The buffer capacity is kept as
a parameter (the source inlines the literal bufferCap = 50) so the
spec's configurable-capacity scenarios are statable; the App's wiring is
the cap = bufferCap instance.
- signal: prepend payload to liveSignals, keep the first cap entries,
  refetch positions and trades once each;
- performance: replace livePerformance outright;
- position_update: refetch positions only;
- any other tag: fall through silently (no branch matches). -/
def handleWebSocketMessage {V : Type} (cap : Nat) (m : WsMessage V)
    (s : AppState V) : AppState V × RefetchCalls :=
  if m.mtype = "signal" then
    ({ s with liveSignals := (m.data :: s.liveSignals).take cap },
     { positionsCalls := 1, tradesCalls := 1 })
  else if m.mtype = "performance" then
    ({ s with livePerformance := some m.data },
     { positionsCalls := 0, tradesCalls := 0 })
  else if m.mtype = "position_update" then
    (s, { positionsCalls := 1, tradesCalls := 0 })
  else
    (s, { positionsCalls := 0, tradesCalls := 0 })

/-- displayPerformance of App.tsx: livePerformance || performance.  A
Performance payload is a JS object, hence truthy, so the pushed value
wins whenever it has ever been set. -/
def displayPerformance {V : Type} (s : AppState V) : Option V :=
  match s.livePerformance with
  | some v => some v
  | none => s.performanceSnap

/-- Completion of a scheduled performance poll: useQuery replaces its
own data cell wholesale and touches nothing else (in particular it does
not clear livePerformance). -/
def completePerformancePoll {V : Type} (v : V) (s : AppState V) : AppState V :=
  { s with performanceSnap := some v }

/-- A raw incoming frame: either one whose JSON.parse throws, or a
decoded envelope. -/
inductive WsFrame (V : Type) where
  | malformed : WsFrame V
  | frame : WsMessage V → WsFrame V

/-- Observable outcome of delivering one frame to ws.onmessage:
resulting App state, refetch calls, console.error count, and whether an
exception escaped the handler (the try/catch around JSON.parse and
onMessage makes this impossible by construction, mirroring the code). -/
structure MsgOutcome (V : Type) where
  state : AppState V
  calls : RefetchCalls
  errorLogs : Nat
  faultEscapes : Bool
deriving DecidableEq

/-- ws.onmessage of useWebSocket.ts wired to handleWebSocketMessage of
App.tsx: JSON.parse the frame and hand the message to the callback; a
parse failure is caught and logged with console.error and the frame is
dropped.  Connection state (isConnected, error, reconnect timer) is not
mentioned in this handler; see wsStep for the connection machine. -/
def wsOnMessage {V : Type} (f : WsFrame V) (s : AppState V) : MsgOutcome V :=
  match f with
  | WsFrame.malformed =>
      { state := s, calls := { positionsCalls := 0, tradesCalls := 0 },
        errorLogs := 1, faultEscapes := false }
  | WsFrame.frame m =>
      let r := handleWebSocketMessage bufferCap m s
      { state := r.1, calls := r.2, errorLogs := 0, faultEscapes := false }

/-- The empty client state: no signals, no live performance, no
snapshots fetched yet. -/
def emptyAppState (V : Type) : AppState V :=
  { liveSignals := [], livePerformance := none, positionsSnap := [],
    tradesSnap := [], performanceSnap := none }

/-!
## Active-ticker derivation (uniqueTickers of App.tsx)

Array.from(new Set(list)) keeps the first occurrence of each element in
insertion order; jsSetToList models it by folding Set.add over the
spread list.
-/

/-- Position record of types.ts restricted to the one field the
modelled derivation reads (ticker); id, quantity, entry_price,
current_price, unrealized_pnl, unrealized_pnl_pct and opened_at are
never read by uniqueTickers and are omitted. -/
structure Position where
  ticker : String
deriving DecidableEq

/-- One Set.add: append the element unless already present (JS Set
keeps the first occurrence, in insertion order). -/
def jsSetAdd (acc : List String) (x : String) : List String :=
  if x ∈ acc then acc else acc ++ [x]

/-- Array.from(new Set(l)): first occurrence of each element kept, in
insertion order. -/
def jsSetToList (l : List String) : List String :=
  l.foldl jsSetAdd []

/-- The elements of l not already in acc, first occurrence each, in
order: what folding jsSetAdd over l appends after acc. -/
def jsSetNew (acc : List String) : List String → List String
  | [] => []
  | x :: xs =>
      if x ∈ acc then jsSetNew acc xs
      else x :: jsSetNew (acc ++ [x]) xs

/-- The default tickers hard-coded in App.tsx. -/
def defaultTickers : List String := ["AAPL", "TSLA", "GME"]

/-- The spread fed to the Set in App.tsx: position tickers, then the
tickers of the first 10 trades, then the defaults. -/
def tickerSpread (positions : List Position) (trades : List Trade) : List String :=
  positions.map Position.ticker ++ (trades.take 10).map Trade.ticker ++ defaultTickers

/-- uniqueTickers of App.tsx:
Array.from(new Set([...positions.map(ticker), ...trades.slice(0,10).map(ticker),
AAPL, TSLA, GME])).slice(0, 10). -/
def uniqueTickers (positions : List Position) (trades : List Trade) : List String :=
  (jsSetToList (tickerSpread positions trades)).take 10

/-!
## Push-channel connection machine (hooks/useWebSocket.ts)

The callback-driven handlers of useWebSocket are embedded as one step
function over an explicit machine state.  Events are the occurrences
the browser can deliver: the socket opening, the socket closing, the
pending reconnect timer firing (the timeout body increments the attempt
counter and calls connect(), which creates a fresh not-yet-open
socket), caller teardown (the useEffect cleanup: clearTimeout of the
pending timer and close() of the current socket — the browser will
afterwards deliver a close event for that socket), and a message frame
arriving on the current socket (delivered only while the socket is
open).  The handlers stay attached after teardown, exactly as in the
source, which never unregisters them nor guards them with a torn-down
flag.
-/

/-- max reconnect attempts (const maxAttempts = 10 in ws.onclose). -/
def maxAttempts : Nat := 10

/-- Reconnect delay scheduled when the attempt counter is k:
Math.min(1000 * Math.pow(2, k), 30000). -/
def delayOf (k : Nat) : Nat :=
  min (1000 * 2 ^ k) 30000

/-- Events deliverable to the useWebSocket handlers. -/
inductive WsEvent where
  | opened : WsEvent
  | closed : WsEvent
  | timerFired : WsEvent
  | teardown : WsEvent
  | frameArrived : WsEvent
deriving DecidableEq

/-- Machine state of useWebSocket: the two useState cells (isConnected,
error), the two refs (attempts, pendingTimer — the scheduled delay when
a reconnect timeout is pending), whether the current socket is open,
whether the caller has torn the hook down, and instrumentation counting
callback invocations (total, and those occurring after teardown). -/
structure WsMachine where
  isConnected : Bool
  error : Option String
  attempts : Nat
  pendingTimer : Option Nat
  socketOpen : Bool
  tornDown : Bool
  callbackCalls : Nat
  callbackAfterTeardown : Nat
deriving DecidableEq

/-- Initial machine state at mount (connect() has been called; the
socket is not yet open). -/
def wsInit : WsMachine :=
  { isConnected := false, error := none, attempts := 0, pendingTimer := none,
    socketOpen := false, tornDown := false, callbackCalls := 0,
    callbackAfterTeardown := 0 }

/-- One event step, transcribing the handlers of useWebSocket.ts:
- opened (ws.onopen): setIsConnected(true), setError(null),
  attempts := 0;
- closed (ws.onclose): setIsConnected(false); if attempts < maxAttempts
  schedule a reconnect after delayOf attempts, else
  setError("Failed to connect after multiple attempts");
- timerFired (the setTimeout body, only when a timer is pending):
  attempts += 1 and connect() — a fresh, not-yet-open socket;
- teardown (useEffect cleanup): clearTimeout of the pending timer and
  close() of the socket (the resulting close event arrives separately);
- frameArrived (ws.onmessage on an open socket): the callback runs. -/
def wsStep (e : WsEvent) (s : WsMachine) : WsMachine :=
  match e with
  | WsEvent.opened =>
      { s with socketOpen := true, isConnected := true, error := none,
               attempts := 0 }
  | WsEvent.closed =>
      if s.attempts < maxAttempts then
        { s with socketOpen := false, isConnected := false,
                 pendingTimer := some (delayOf s.attempts) }
      else
        { s with socketOpen := false, isConnected := false,
                 error := some "Failed to connect after multiple attempts" }
  | WsEvent.timerFired =>
      match s.pendingTimer with
      | some _ =>
          { s with pendingTimer := none, attempts := s.attempts + 1,
                   socketOpen := false }
      | none => s
  | WsEvent.teardown =>
      { s with tornDown := true, pendingTimer := none }
  | WsEvent.frameArrived =>
      if s.socketOpen then
        { s with callbackCalls := s.callbackCalls + 1,
                 callbackAfterTeardown :=
                   s.callbackAfterTeardown + (if s.tornDown then 1 else 0) }
      else s

/-- Run a sequence of events through the machine. -/
def wsRun (evs : List WsEvent) (s : WsMachine) : WsMachine :=
  evs.foldl (fun t e => wsStep e t) s

/-- The teardown-while-connected trace: the hook unmounts while the
socket is open; the browser then delivers the close event caused by the
cleanup's close(); the (uncancelled, freshly scheduled) reconnect timer
fires; the new socket opens; a frame arrives on it. -/
def teardownTrace : List WsEvent :=
  [WsEvent.opened, WsEvent.teardown, WsEvent.closed, WsEvent.timerFired,
   WsEvent.opened, WsEvent.frameArrived]

/-!
## Helper lemmas
-/

lemma insertByTs_perm (a : Trade) (l : List Trade) :
    (insertByTs a l).Perm (a :: l) := by
  induction l with
  | nil => simp [insertByTs]
  | cons b t ih =>
    unfold insertByTs
    by_cases h : a.timestamp ≤ b.timestamp
    · simp [h]
    · simp only [if_neg h]
      exact (List.Perm.cons b ih).trans (List.Perm.swap a b t)

lemma sortByTs_perm (l : List Trade) : (sortByTs l).Perm l := by
  induction l with
  | nil => simp [sortByTs]
  | cons t ts ih =>
    exact (insertByTs_perm t (sortByTs ts)).trans (List.Perm.cons t ih)

lemma chartStep_length (acc : List ChartDataPoint) (t : Trade) :
    (chartStep acc t).length = acc.length + 1 := by
  simp [chartStep]

lemma foldl_chartStep_length :
    ∀ (l : List Trade) (acc : List ChartDataPoint),
      (l.foldl chartStep acc).length = acc.length + l.length := by
  intro l
  induction l with
  | nil => intro acc; simp
  | cons t ts ih =>
    intro acc
    rw [List.foldl_cons, ih, chartStep_length]
    simp only [List.length_cons]
    omega

lemma finalTotal_concat (acc : List ChartDataPoint) (p : ChartDataPoint) :
    finalTotal (acc ++ [p]) = p.cumulative_pnl := by
  simp [finalTotal, List.getLast?_concat]

lemma foldl_chartStep_total :
    ∀ (l : List Trade) (acc : List ChartDataPoint),
      finalTotal (l.foldl chartStep acc) =
        finalTotal acc + (l.map fun t => pnlOrZero t.realized_pnl).sum := by
  intro l
  induction l with
  | nil => intro acc; simp
  | cons t ts ih =>
    intro acc
    rw [List.foldl_cons, ih, chartStep, finalTotal_concat]
    simp
    ring

lemma sum_map_pnl_filter :
    ∀ l : List Trade,
      ((l.filter hasDefinedPnl).map fun t => pnlOrZero t.realized_pnl).sum =
        sumRealized l := by
  intro l
  induction l with
  | nil => rfl
  | cons t ts ih =>
    cases h : t.realized_pnl with
    | undef =>
      simp [List.filter_cons, hasDefinedPnl, h, sumRealized,
            List.filterMap_cons, pnlOrZero] at ih ⊢
      simpa [sumRealized] using ih
    | pnull =>
      simp [List.filter_cons, hasDefinedPnl, h, sumRealized,
            List.filterMap_cons, pnlOrZero] at ih ⊢
      simpa [sumRealized] using ih
    | num v =>
      simp [List.filter_cons, hasDefinedPnl, h, sumRealized,
            List.filterMap_cons, pnlOrZero] at ih ⊢
      simpa [sumRealized] using ih

lemma jsSetAdd_nodup {acc : List String} {x : String} (h : acc.Nodup) :
    (jsSetAdd acc x).Nodup := by
  unfold jsSetAdd
  split
  · exact h
  · next hx => simp [List.nodup_append, h, hx]

lemma foldl_jsSetAdd_nodup :
    ∀ (l acc : List String), acc.Nodup → (l.foldl jsSetAdd acc).Nodup := by
  intro l
  induction l with
  | nil => intro acc h; exact h
  | cons x xs ih => intro acc h; exact ih _ (jsSetAdd_nodup h)

lemma foldl_jsSetAdd_append_new :
    ∀ (l acc : List String), l.foldl jsSetAdd acc = acc ++ jsSetNew acc l := by
  intro l
  induction l with
  | nil => intro acc; simp [jsSetNew]
  | cons x xs ih =>
    intro acc
    by_cases hx : x ∈ acc
    · simp [List.foldl_cons, jsSetAdd, jsSetNew, hx, ih]
    · simp [List.foldl_cons, jsSetAdd, jsSetNew, hx, ih, List.append_assoc]

lemma jsSetNew_subset :
    ∀ (l acc : List String) (x : String), x ∈ jsSetNew acc l → x ∈ l := by
  intro l
  induction l with
  | nil => intro acc x h; simp [jsSetNew] at h
  | cons y ys ih =>
    intro acc x h
    unfold jsSetNew at h
    by_cases hy : y ∈ acc
    · rw [if_pos hy] at h
      exact List.mem_cons_of_mem _ (ih _ _ h)
    · rw [if_neg hy] at h
      rcases List.mem_cons.mp h with h1 | h2
      · exact h1 ▸ List.mem_cons_self _ _
      · exact List.mem_cons_of_mem _ (ih _ _ h2)

lemma mem_jsSetToList {x : String} {l : List String} (h : x ∈ jsSetToList l) :
    x ∈ l := by
  rw [jsSetToList, foldl_jsSetAdd_append_new] at h
  simp only [List.nil_append] at h
  exact jsSetNew_subset l [] x h

/-!
## Claim theorems
-/

/-- Claim C1, counterexample: the claim says that once a scheduled poll
completes after a performance push, the polled value is the one
displayed.  In the code, livePerformance is never cleared, and
displayPerformance is livePerformance || performance with an always
truthy object, so after push 1 and a completed poll delivering 2 the
displayed performance is still 1, not the polled 2. -/
theorem c1_display_counterexample :
    displayPerformance
        (completePerformancePoll 2
          (handleWebSocketMessage bufferCap
            { mtype := "performance", data := (1 : Nat) }
            (emptyAppState Nat)).1) ≠ some 2 := by
  decide

/-- Claim C1, amended: a performance push replaces the displayed
performance outright, and the pushed value stays displayed even after a
subsequently completed scheduled poll — the poll updates only the
polled snapshot and never takes the display back over; only another
push changes the displayed value. -/
theorem c1_display_amended :
    ∀ (V : Type) (s : AppState V) (v p w : V),
      displayPerformance
          (handleWebSocketMessage bufferCap
            { mtype := "performance", data := v } s).1 = some v ∧
      displayPerformance
          (completePerformancePoll p
            (handleWebSocketMessage bufferCap
              { mtype := "performance", data := v } s).1) = some v ∧
      displayPerformance
          (handleWebSocketMessage bufferCap
            { mtype := "performance", data := w }
            (completePerformancePoll p
              (handleWebSocketMessage bufferCap
                { mtype := "performance", data := v } s).1)).1 = some w := by
  intro V s v p w
  exact ⟨rfl, rfl, rfl⟩

/-- Claim C2, counterexample: on the spec scenario with realized_pnl
null at ts 1, the code's filter t.realized_pnl !== undefined keeps the
null trade, which therefore contributes a point (1, 0); the derived
series is not the claimed two-point series. -/
theorem c2_series_counterexample :
    chartData [{ ticker := "A", timestamp := 1, realized_pnl := PnlField.pnull },
               { ticker := "A", timestamp := 2, realized_pnl := PnlField.num 10 },
               { ticker := "A", timestamp := 3, realized_pnl := PnlField.num (-4) }] ≠
      [{ timestamp := 2, cumulative_pnl := 10 },
       { timestamp := 3, cumulative_pnl := 6 }] := by
  decide

/-- Claim C2, amended: on the scenario input the null trade contributes
a zero-increment point, giving the three-point series
(1,0), (2,10), (3,6); only a trade whose realized_pnl is absent
(undefined) contributes no point, and with ts 1 absent the series is
exactly the claimed (2,10), (3,6). -/
theorem c2_series_amended :
    chartData [{ ticker := "A", timestamp := 1, realized_pnl := PnlField.pnull },
               { ticker := "A", timestamp := 2, realized_pnl := PnlField.num 10 },
               { ticker := "A", timestamp := 3, realized_pnl := PnlField.num (-4) }] =
      [{ timestamp := 1, cumulative_pnl := 0 },
       { timestamp := 2, cumulative_pnl := 10 },
       { timestamp := 3, cumulative_pnl := 6 }] ∧
    chartData [{ ticker := "A", timestamp := 1, realized_pnl := PnlField.undef },
               { ticker := "A", timestamp := 2, realized_pnl := PnlField.num 10 },
               { ticker := "A", timestamp := 3, realized_pnl := PnlField.num (-4) }] =
      [{ timestamp := 2, cumulative_pnl := 10 },
       { timestamp := 3, cumulative_pnl := 6 }] := by
  decide

/-- Claim C5: a signal envelope prepends the payload to the bounded
buffer (newest first) keeping the first cap entries, so the length
becomes min cap (length + 1) — it increases by 1 while below capacity —
and exactly one refetch each is issued for positions and trades; with
capacity 3, delivering S1..S4 in order leaves the buffer [S4, S3, S2]. -/
theorem c5_signal_buffer :
    (∀ (V : Type) (cap : Nat) (d : V) (s : AppState V),
      (handleWebSocketMessage cap { mtype := "signal", data := d } s).1.liveSignals =
          (d :: s.liveSignals).take cap ∧
      (handleWebSocketMessage cap { mtype := "signal", data := d } s).1.liveSignals.length =
          min cap (s.liveSignals.length + 1) ∧
      (s.liveSignals.length < cap →
        (handleWebSocketMessage cap { mtype := "signal", data := d } s).1.liveSignals.length =
          s.liveSignals.length + 1) ∧
      (handleWebSocketMessage cap { mtype := "signal", data := d } s).2 =
          { positionsCalls := 1, tradesCalls := 1 }) ∧
    (["S1", "S2", "S3", "S4"].foldl
        (fun st n => (handleWebSocketMessage 3 { mtype := "signal", data := n } st).1)
        (emptyAppState String)).liveSignals = ["S4", "S3", "S2"] := by
  constructor
  · intro V cap d s
    have hbuf :
        (handleWebSocketMessage cap { mtype := "signal", data := d } s).1.liveSignals =
          (d :: s.liveSignals).take cap := rfl
    have hlen :
        ((d :: s.liveSignals).take cap).length = min cap (s.liveSignals.length + 1) := by
      simp [List.length_take]
    refine ⟨hbuf, ?_, ?_, rfl⟩
    · rw [hbuf, hlen]
    · intro hlt
      rw [hbuf, hlen]
      omega
  · decide

/-- Claim C5, witness: with capacity 3 and the empty client state, one
signal envelope grows the buffer from length 0 to length 1. -/
theorem c5_signal_buffer_witness :
    (handleWebSocketMessage 3 { mtype := "signal", data := (7 : Nat) }
        (emptyAppState Nat)).1.liveSignals.length =
      (emptyAppState Nat).liveSignals.length + 1 :=
  (c5_signal_buffer.1 Nat 3 7 (emptyAppState Nat)).2.2.1 (by decide)

/-- Claim C8: a position_update envelope leaves the whole client state
unchanged — in particular the signal buffer, the displayed live
performance and the trades snapshot — and issues exactly one positions
refetch and zero trades refetches. -/
theorem c8_position_update_effect :
    ∀ (V : Type) (d : V) (s : AppState V),
      handleWebSocketMessage bufferCap { mtype := "position_update", data := d } s =
          (s, { positionsCalls := 1, tradesCalls := 0 }) ∧
      (handleWebSocketMessage bufferCap { mtype := "position_update", data := d } s).1.liveSignals =
          s.liveSignals ∧
      (handleWebSocketMessage bufferCap { mtype := "position_update", data := d } s).1.livePerformance =
          s.livePerformance ∧
      (handleWebSocketMessage bufferCap { mtype := "position_update", data := d } s).1.tradesSnap =
          s.tradesSnap := by
  intro V d s
  exact ⟨rfl, rfl, rfl, rfl⟩

/-- Claim C9: the code violates the no-callback-after-teardown
guarantee.  The useEffect cleanup clears the pending timer and closes
the socket, but the still-attached onclose handler of the closed socket
schedules a fresh reconnect that nothing cancels; the reconnected
socket's onmessage then invokes the subscriber callback after teardown.
On the teardown-while-connected trace the callback fires exactly once
after teardown. -/
theorem c9_teardown_callback_bug :
    (wsRun teardownTrace wsInit).tornDown = true ∧
    (wsRun teardownTrace wsInit).callbackAfterTeardown = 1 := by
  decide

/-- Claim C3, counterexample: an envelope with an unknown tag is indeed
dropped (state and refetch calls untouched), but silently — the claimed
logged warning does not happen (errorLogs = 0: only a JSON.parse
failure is logged; the handler's if/else chain has no final else). -/
theorem c3_malformed_counterexample :
    (wsOnMessage (WsFrame.frame { mtype := "heartbeat", data := (0 : Nat) })
        (emptyAppState Nat)).errorLogs = 0 ∧
    (wsOnMessage (WsFrame.frame { mtype := "heartbeat", data := (0 : Nat) })
        (emptyAppState Nat)).state = emptyAppState Nat ∧
    (wsOnMessage (WsFrame.frame { mtype := "heartbeat", data := (0 : Nat) })
        (emptyAppState Nat)).calls = { positionsCalls := 0, tradesCalls := 0 } := by
  decide

/-- Claim C3, amended: a frame that fails to decode is dropped with one
logged error; an envelope with an unknown tag is dropped silently, with
no warning; payload shapes are never validated, so a recognized tag's
payload is applied as-is (a performance envelope installs whatever
payload it carries); no delivery raises a fault that escapes the
handler; and message delivery never touches connection state — it
changes neither isConnected, the error string, the attempt counter nor
the reconnect timer, so no reconnect is triggered. -/
theorem c3_malformed_amended :
    ∀ (V : Type) (t : String) (d : V) (s : AppState V) (ms : WsMachine),
      wsOnMessage (WsFrame.malformed : WsFrame V) s =
          { state := s, calls := { positionsCalls := 0, tradesCalls := 0 },
            errorLogs := 1, faultEscapes := false } ∧
      (t ≠ "signal" → t ≠ "performance" → t ≠ "position_update" →
        wsOnMessage (WsFrame.frame { mtype := t, data := d }) s =
          { state := s, calls := { positionsCalls := 0, tradesCalls := 0 },
            errorLogs := 0, faultEscapes := false }) ∧
      (wsOnMessage (WsFrame.frame { mtype := "performance", data := d }) s).state.livePerformance =
          some d ∧
      (∀ f : WsFrame V, (wsOnMessage f s).faultEscapes = false) ∧
      ((wsStep WsEvent.frameArrived ms).isConnected = ms.isConnected ∧
       (wsStep WsEvent.frameArrived ms).error = ms.error ∧
       (wsStep WsEvent.frameArrived ms).pendingTimer = ms.pendingTimer ∧
       (wsStep WsEvent.frameArrived ms).attempts = ms.attempts) := by
  intro V t d s ms
  refine ⟨rfl, ?_, rfl, ?_, ?_⟩
  · intro h1 h2 h3
    simp [wsOnMessage, handleWebSocketMessage, h1, h2, h3]
  · intro f
    cases f <;> rfl
  · by_cases hso : ms.socketOpen <;> simp [wsStep, hso]

/-- Claim C3, witness: a frame tagged heartbeat delivered to the empty
client state is dropped without any log, refetch or state change. -/
theorem c3_malformed_amended_witness :
    wsOnMessage (WsFrame.frame { mtype := "heartbeat", data := (0 : Nat) })
        (emptyAppState Nat) =
      { state := emptyAppState Nat,
        calls := { positionsCalls := 0, tradesCalls := 0 },
        errorLogs := 0, faultEscapes := false } :=
  (c3_malformed_amended Nat "heartbeat" 0 (emptyAppState Nat) wsInit).2.1
    (by decide) (by decide) (by decide)

/-- Claim C4: for trade lists within the declared interface type
(realized_pnl is a number or absent, never null), the derived series
has one point per trade carrying a numeric realized P&L and its final
running total is the sum of all realized P&L values in the input, and
both values are those of the original list for every permutation fed to
the derivation (sort-then-fold correctness). -/
theorem c4_sort_fold_correct (tl tl' : List Trade) (hperm : tl.Perm tl')
    (hnn : ∀ t ∈ tl, t.realized_pnl ≠ PnlField.pnull) :
    (chartData tl').length = countNumericPnl tl ∧
    finalTotal (chartData tl') = sumRealized tl := by
  have hfil : (tl'.filter hasDefinedPnl).Perm (tl.filter hasDefinedPnl) :=
    hperm.symm.filter _
  constructor
  · have h1 : (chartData tl').length = (sortByTs (tl'.filter hasDefinedPnl)).length := by
      unfold chartData
      rw [foldl_chartStep_length]
      simp
    rw [h1, (sortByTs_perm _).length_eq, hfil.length_eq]
    unfold countNumericPnl
    congr 1
    apply List.filter_congr
    intro t ht
    cases h : t.realized_pnl with
    | undef => simp [hasDefinedPnl, isNumPnl, h]
    | pnull => exact absurd h (hnn t ht)
    | num v => simp [hasDefinedPnl, isNumPnl, h]
  · unfold chartData
    rw [foldl_chartStep_total]
    have hs1 :
        ((sortByTs (tl'.filter hasDefinedPnl)).map fun t => pnlOrZero t.realized_pnl).sum =
          ((tl'.filter hasDefinedPnl).map fun t => pnlOrZero t.realized_pnl).sum :=
      ((sortByTs_perm _).map _).sum_eq
    have hs2 :
        ((tl'.filter hasDefinedPnl).map fun t => pnlOrZero t.realized_pnl).sum =
          ((tl.filter hasDefinedPnl).map fun t => pnlOrZero t.realized_pnl).sum :=
      (hfil.map _).sum_eq
    rw [hs1, hs2, sum_map_pnl_filter]
    simp [finalTotal]

/-- Claim C4, witness: the two-trade list with one numeric and one
absent realized P&L, permuted by swapping, yields one point and final
total 10. -/
theorem c4_sort_fold_correct_witness :
    (chartData [{ ticker := "B", timestamp := 1, realized_pnl := PnlField.undef },
                { ticker := "A", timestamp := 2, realized_pnl := PnlField.num 10 }]).length =
      countNumericPnl
        [{ ticker := "A", timestamp := 2, realized_pnl := PnlField.num 10 },
         { ticker := "B", timestamp := 1, realized_pnl := PnlField.undef }] ∧
    finalTotal
        (chartData [{ ticker := "B", timestamp := 1, realized_pnl := PnlField.undef },
                    { ticker := "A", timestamp := 2, realized_pnl := PnlField.num 10 }]) =
      sumRealized
        [{ ticker := "A", timestamp := 2, realized_pnl := PnlField.num 10 },
         { ticker := "B", timestamp := 1, realized_pnl := PnlField.undef }] :=
  c4_sort_fold_correct
    [{ ticker := "A", timestamp := 2, realized_pnl := PnlField.num 10 },
     { ticker := "B", timestamp := 1, realized_pnl := PnlField.undef }]
    [{ ticker := "B", timestamp := 1, realized_pnl := PnlField.undef },
     { ticker := "A", timestamp := 2, realized_pnl := PnlField.num 10 }]
    (by decide) (by decide)

/-- Claim C6: while the attempt counter k is below the ceiling, a close
schedules a reconnect after exactly min(1000 * 2^k, 30000) ms, so
attempts 0, 1, 2 wait 1s, 2s, 4s; the delay is monotone in k and never
exceeds the 30s cap; an open resets the counter to 0; and once the
counter has reached the ceiling of 10, a close surfaces the terminal
error string and schedules nothing, and no later event short of an open
ever schedules a reconnect again. -/
theorem c6_backoff :
    (∀ s : WsMachine, s.attempts < maxAttempts →
      (wsStep WsEvent.closed s).pendingTimer = some (delayOf s.attempts)) ∧
    (delayOf 0 = 1000 ∧ delayOf 1 = 2000 ∧ delayOf 2 = 4000) ∧
    (∀ j k : Nat, j ≤ k → delayOf j ≤ delayOf k) ∧
    (∀ k : Nat, delayOf k ≤ 30000) ∧
    (∀ s : WsMachine, (wsStep WsEvent.opened s).attempts = 0) ∧
    (∀ s : WsMachine, maxAttempts ≤ s.attempts →
      (wsStep WsEvent.closed s).error = some "Failed to connect after multiple attempts" ∧
      (wsStep WsEvent.closed s).pendingTimer = s.pendingTimer) ∧
    (∀ (evs : List WsEvent) (s : WsMachine),
      maxAttempts ≤ s.attempts → s.pendingTimer = none →
      (∀ e ∈ evs, e ≠ WsEvent.opened) →
      (wsRun evs s).pendingTimer = none) := by
  refine ⟨?_, by decide, ?_, ?_, ?_, ?_, ?_⟩
  · intro s h
    simp [wsStep, h]
  · intro j k h
    have hpow : (2 : ℕ) ^ j ≤ 2 ^ k := Nat.pow_le_pow_right (by norm_num) h
    exact min_le_min (Nat.mul_le_mul le_rfl hpow) le_rfl
  · intro k
    exact min_le_right _ _
  · intro s
    rfl
  · intro s h
    have hlt : ¬ s.attempts < maxAttempts := not_lt.mpr h
    constructor <;> simp [wsStep, hlt]
  · intro evs
    induction evs with
    | nil => intro s _ hp _; exact hp
    | cons e rest ih =>
      intro s h hp hno
      have he : e ≠ WsEvent.opened := hno e (by simp)
      have hrest : ∀ x ∈ rest, x ≠ WsEvent.opened := fun x hx => hno x (by simp [hx])
      have hstep : (wsStep e s).pendingTimer = none ∧ maxAttempts ≤ (wsStep e s).attempts := by
        cases e with
        | opened => exact absurd rfl he
        | closed =>
          have hlt : ¬ s.attempts < maxAttempts := not_lt.mpr h
          simp [wsStep, hlt, hp, h]
        | timerFired => simp [wsStep, hp, h]
        | teardown => simp [wsStep, h]
        | frameArrived => by_cases hso : s.socketOpen <;> simp [wsStep, hso, hp, h]
      exact ih (wsStep e s) hstep.2 hstep.1 hrest

/-- A machine state that has exhausted its reconnect attempts. -/
def wsAtCeiling : WsMachine :=
  { wsInit with attempts := 10 }

/-- Claim C6, witness: from the initial state the first close schedules
a 1000 ms reconnect, and from an exhausted state a close followed by a
timer tick schedules nothing. -/
theorem c6_backoff_witness :
    (wsStep WsEvent.closed wsInit).pendingTimer = some (delayOf wsInit.attempts) ∧
    (wsRun [WsEvent.closed, WsEvent.timerFired] wsAtCeiling).pendingTimer = none :=
  ⟨c6_backoff.1 wsInit (by decide),
   c6_backoff.2.2.2.2.2.2 [WsEvent.closed, WsEvent.timerFired] wsAtCeiling
     (by decide) (by decide) (by decide)⟩

/-- Claim C7: the active-ticker derivation never emits a duplicate and
never emits more than cap = 10 entries, for every positions and trades
input. -/
theorem c7_active_tickers (P : List Position) (T : List Trade) :
    (uniqueTickers P T).Nodup ∧ (uniqueTickers P T).length ≤ 10 := by
  constructor
  · exact List.Nodup.sublist (List.take_sublist _ _)
      (foldl_jsSetAdd_nodup _ [] List.nodup_nil)
  · exact List.length_take_le _ _

/-- Claim C10: the de-duplicated spread lists every position ticker
first (in order, first occurrences), followed by the previously unseen
trade and default tickers; hence when the position tickers alone
already reach cap = 10 distinct entries, the output is exactly the
first 10 distinct position tickers — the trade tickers and the
defaults AAPL, TSLA, GME are the entries truncated away — and any
ticker not among the position tickers, a default in particular, is
absent from the output. -/
theorem c10_truncation_order (P : List Position) (T : List Trade)
    (h : 10 ≤ (jsSetToList (P.map Position.ticker)).length) :
    jsSetToList (tickerSpread P T) =
        jsSetToList (P.map Position.ticker) ++
          jsSetNew (jsSetToList (P.map Position.ticker))
            ((T.take 10).map Trade.ticker ++ defaultTickers) ∧
    uniqueTickers P T = (jsSetToList (P.map Position.ticker)).take 10 ∧
    (∀ d : String, d ∉ P.map Position.ticker → d ∉ uniqueTickers P T) := by
  have hdec :
      jsSetToList (tickerSpread P T) =
        jsSetToList (P.map Position.ticker) ++
          jsSetNew (jsSetToList (P.map Position.ticker))
            ((T.take 10).map Trade.ticker ++ defaultTickers) := by
    unfold tickerSpread jsSetToList
    rw [List.append_assoc, List.foldl_append]
    exact foldl_jsSetAdd_append_new _ _
  have htrunc : uniqueTickers P T = (jsSetToList (P.map Position.ticker)).take 10 := by
    unfold uniqueTickers
    rw [hdec]
    exact List.take_append_of_le_length h
  refine ⟨hdec, htrunc, ?_⟩
  intro d hd hmem
  rw [htrunc] at hmem
  have : d ∈ jsSetToList (P.map Position.ticker) :=
    (List.take_sublist _ _).mem hmem
  exact hd (mem_jsSetToList this)

/-- Ten positions with distinct non-default tickers. -/
def tenPositions : List Position :=
  [{ ticker := "T1" }, { ticker := "T2" }, { ticker := "T3" }, { ticker := "T4" },
   { ticker := "T5" }, { ticker := "T6" }, { ticker := "T7" }, { ticker := "T8" },
   { ticker := "T9" }, { ticker := "T10" }]

/-- Claim C10, witness: with ten distinct position tickers the default
AAPL is truncated out of the derived universe. -/
theorem c10_truncation_order_witness :
    "AAPL" ∉ uniqueTickers tenPositions [] :=
  (c10_truncation_order tenPositions [] (by decide)).2.2 "AAPL" (by decide)
